import Mathlib

/-!
Shallow embedding of the WhatsApp chat analyzer's core
(src/execution/chat_parser.py and src/execution/metrics_calculator.py),
together with theorems settling the specification claims about it.

Strings are modelled by Lean's String (a list of characters); Python's
case folding and whitespace handling are modelled at the character level
for the character classes that occur in this codebase (ASCII letters,
ASCII digits, and the Unicode whitespace characters Python's str.isspace
recognises).  Timestamps are modelled as absolute second counts (Int) in
the proleptic Gregorian calendar, with 0001-01-01 00:00:00 mapping to 0;
datetime subtraction, weekday() (Monday = 0) and hour are derived from
that count exactly as for Python's datetime.
-/

/-- Python's str.isspace / regex \s character class (the full Unicode set
recognised by CPython). -/
def isPyWhitespace (c : Char) : Bool :=
  let n := c.toNat
  (9 ≤ n && n ≤ 13) || (28 ≤ n && n ≤ 31) || n == 32 || n == 0x85 || n == 0xA0 ||
  n == 0x1680 || (0x2000 ≤ n && n ≤ 0x200A) || n == 0x2028 || n == 0x2029 ||
  n == 0x202F || n == 0x205F || n == 0x3000

/-- Python str.strip() on a character list: drop leading and trailing whitespace. -/
def stripList (cs : List Char) : List Char :=
  ((cs.dropWhile isPyWhitespace).reverse.dropWhile isPyWhitespace).reverse

/-- Python str.strip(). -/
def pyStrip (s : String) : String :=
  String.mk (stripList s.data)

/-- Python str.lower(), restricted to ASCII case folding (all patterns
matched in the source are ASCII). -/
def pyLower (s : String) : String :=
  String.mk (s.data.map Char.toLower)

/-- Is the first list a prefix of the second? -/
def isPrefixList : List Char → List Char → Bool
  | [], _ => true
  | _ :: _, [] => false
  | a :: as, b :: bs => a == b && isPrefixList as bs

/-- Python's substring containment test (needle in haystack). -/
def listContains (needle : List Char) : List Char → Bool
  | [] => isPrefixList needle []
  | c :: rest => isPrefixList needle (c :: rest) || listContains needle rest

/-- Python substring containment on strings. -/
def containsSubstr (needle hay : String) : Bool :=
  listContains needle.data hay.data

/-- Python str.replace(pat, rep): replace every non-overlapping occurrence,
scanning left to right.  The fuel argument (instantiated with the input
length, which bounds the number of steps) keeps the recursion structural. -/
def replaceListAux (pat rep : List Char) : Nat → List Char → List Char
  | _, [] => []
  | 0, s => s
  | fuel + 1, c :: rest =>
    if isPrefixList pat (c :: rest) && pat.length > 0 then
      rep ++ replaceListAux pat rep fuel (List.drop (pat.length - 1) rest)
    else
      c :: replaceListAux pat rep fuel rest

/-- Python str.replace(pat, rep) on character lists. -/
def replaceList (pat rep s : List Char) : List Char :=
  replaceListAux pat rep s.length s

/-- str.replace on strings. -/
def pyReplace (s pat rep : String) : String :=
  String.mk (replaceList pat.data rep.data s.data)

/-- Numeric value of an ASCII digit. -/
def digitVal (c : Char) : Nat := c.toNat - 48

/-- Python int() on a run of ASCII digits. -/
def digitsToNat (ds : List Char) : Nat :=
  ds.foldl (fun a c => a * 10 + digitVal c) 0

/-- The message-type taxonomy of chat_parser.MessageType (the audio
variant, called AUDIO in the source, is named AUDIO_ here). -/
inductive MessageType where
  | TEXT
  | IMAGE
  | VIDEO
  | AUDIO_
  | STICKER
  | GIF
  | DOCUMENT
  | VIDEO_CALL
  | VOICE_CALL
  | MISSED_VIDEO_CALL
  | MISSED_VOICE_CALL
  | DELETED
  | SYSTEM
  | LOCATION
  | CONTACT
deriving DecidableEq

/-- chat_parser.Message: one parsed chat entry.  The timestamp is the
absolute second count of the datetime. -/
structure Message where
  timestamp : Int
  sender : String
  content : String
  message_type : MessageType
  raw_line : String
  call_duration_seconds : Option Nat := none
  is_edited : Bool := false
deriving DecidableEq

/-- The SKIP_PATTERNS list of chat_parser.py. -/
def SKIP_PATTERNS : List String :=
  ["Messages and calls are end-to-end encrypted",
   "security code changed",
   "created group",
   "added you",
   "left the group",
   "changed the group",
   "You're now an admin"]

/-- One attempt of the regex (\d+)\s*unit at the current position:
a maximal digit run, optional whitespace, then the unit literal.
(Greedy matching needs no backtracking here because the unit starts with
a letter, which is neither a digit nor whitespace.) -/
def matchNumUnitAt (unit cs : List Char) : Option Nat :=
  let ds := cs.takeWhile Char.isDigit
  if ds.isEmpty then none
  else
    let rest := (cs.dropWhile Char.isDigit).dropWhile isPyWhitespace
    if isPrefixList unit rest then some (digitsToNat ds) else none

/-- re.search for (\d+)\s*unit: leftmost match wins. -/
def searchNumUnit (unit : List Char) : List Char → Option Nat
  | [] => none
  | c :: rest =>
    match matchNumUnitAt unit (c :: rest) with
    | some n => some n
    | none => searchNumUnit unit rest

/-- chat_parser.parse_call_duration: extract a call duration in seconds,
None for missed / no-answer calls and when no positive total is found.
The IGNORECASE searches are modelled by searching the lowered content. -/
def parse_call_duration (content : String) : Option Nat :=
  let lower := (pyLower content).data
  if listContains "no answer".data lower || listContains "missed".data lower then
    none
  else
    let hrs := match searchNumUnit "hr".data lower with
      | some n => n * 3600
      | none => 0
    let mins := match searchNumUnit "min".data lower with
      | some n => n * 60
      | none => 0
    let secs := match searchNumUnit "sec".data lower with
      | some n => n
      | none => 0
    let total_seconds := hrs + mins + secs
    if total_seconds > 0 then some total_seconds else none

/-- The content_lower local of classify_message_type:
content.lower().strip(). -/
def contentLowerOf (content : String) : List Char :=
  (pyStrip (pyLower content)).data

/-- The is_edited local of classify_message_type. -/
def isEditedOf (content : String) : Bool :=
  listContains "<This message was edited>".data content.data ||
    listContains ("\u200E<This message was edited>").data content.data

/-- chat_parser.classify_message_type: classify content, returning
(message type, call duration, edited flag); its locals content_lower and
is_edited are the named definitions above, inlined at each use, and the
duration local is inlined into the answered-call results (equivalent,
since parse_call_duration is pure). -/
def classify_message_type (content : String) : MessageType × Option Nat × Bool :=
  if listContains "image omitted".data (contentLowerOf content) then
    (MessageType.IMAGE, none, isEditedOf content)
  else if listContains "video omitted".data (contentLowerOf content) then
    (MessageType.VIDEO, none, isEditedOf content)
  else if listContains "audio omitted".data (contentLowerOf content) then
    (MessageType.AUDIO_, none, isEditedOf content)
  else if listContains "sticker omitted".data (contentLowerOf content) then
    (MessageType.STICKER, none, isEditedOf content)
  else if listContains "gif omitted".data (contentLowerOf content) then
    (MessageType.GIF, none, isEditedOf content)
  else if listContains "document omitted".data (contentLowerOf content) then
    (MessageType.DOCUMENT, none, isEditedOf content)
  else if listContains "location:".data (contentLowerOf content) ||
      listContains "live location shared".data (contentLowerOf content) then
    (MessageType.LOCATION, none, isEditedOf content)
  else if listContains "contact card omitted".data (contentLowerOf content) then
    (MessageType.CONTACT, none, isEditedOf content)
  else if listContains "video call".data (contentLowerOf content) then
    if listContains "missed".data (contentLowerOf content) ||
        listContains "no answer".data (contentLowerOf content) then
      (MessageType.MISSED_VIDEO_CALL, none, isEditedOf content)
    else
      (MessageType.VIDEO_CALL, parse_call_duration content, isEditedOf content)
  else if listContains "voice call".data (contentLowerOf content) ||
      (listContains "call".data (contentLowerOf content) &&
        !(listContains "video".data (contentLowerOf content))) then
    if listContains "missed".data (contentLowerOf content) ||
        listContains "no answer".data (contentLowerOf content) then
      (MessageType.MISSED_VOICE_CALL, none, isEditedOf content)
    else
      (MessageType.VOICE_CALL, parse_call_duration content, isEditedOf content)
  else if listContains "this message was deleted".data (contentLowerOf content) ||
      listContains "you deleted this message".data (contentLowerOf content) then
    (MessageType.DELETED, none, isEditedOf content)
  else
    (MessageType.TEXT, none, isEditedOf content)

/-- chat_parser.should_skip_message: case-insensitive substring test
against SKIP_PATTERNS. -/
def should_skip_message (content : String) : Bool :=
  SKIP_PATTERNS.any fun p => listContains (pyLower p).data (pyLower content).data

/-- Drop a single trailing newline (the regex anchor $ tolerates one). -/
def dropTrailingNewline (cs : List Char) : List Char :=
  if cs.getLast? == some '\n' then cs.dropLast else cs

/-- The date part of TIMESTAMP_PATTERN: \d{2}/\d{2}/\d{2}, returning the
matched characters and the remainder. -/
def matchDate : List Char → Option (List Char × List Char)
  | d1 :: d2 :: '/' :: d3 :: d4 :: '/' :: d5 :: d6 :: rest =>
    if d1.isDigit && d2.isDigit && d3.isDigit && d4.isDigit && d5.isDigit && d6.isDigit then
      some ([d1, d2, '/', d3, d4, '/', d5, d6], rest)
    else none
  | _ => none

/-- The time part of TIMESTAMP_PATTERN:
\d{1,2}:\d{2}:\d{2}[\s ]*[AP]M (U+202F is whitespace, so the
character class is the whitespace class), returning the matched
characters and the remainder. -/
def matchTime (cs : List Char) : Option (List Char × List Char) :=
  let hds := cs.takeWhile Char.isDigit
  let r1 := cs.dropWhile Char.isDigit
  if hds.length == 1 || hds.length == 2 then
    match r1 with
    | ':' :: m1 :: m2 :: ':' :: s1 :: s2 :: r2 =>
      if m1.isDigit && m2.isDigit && s1.isDigit && s2.isDigit then
        let ws := r2.takeWhile isPyWhitespace
        match r2.dropWhile isPyWhitespace with
        | p :: 'M' :: r3 =>
          if p == 'A' || p == 'P' then
            some (hds ++ ':' :: m1 :: m2 :: ':' :: s1 :: s2 :: (ws ++ [p, 'M']), r3)
          else none
        | _ => none
      else none
    | _ => none
  else none

/-- The lazy sender part (.+?): followed by a space: split at the first
occurrence of colon-space; the accumulator already holds at least the one
character the sender must contain.  Returns (sender, content). -/
def splitColonAux (acc : List Char) : List Char → Option (List Char × List Char)
  | ':' :: ' ' :: rest => some (acc.reverse, rest)
  | c :: rest => splitColonAux (c :: acc) rest
  | [] => none

/-- chat_parser.TIMESTAMP_PATTERN.match: on success returns the groups
(date, time, sender, content). -/
def matchBoundary (line : String) : Option (String × String × String × String) :=
  if (dropTrailingNewline line.data).contains '\n' then none
  else
    match dropTrailingNewline line.data with
    | [] => none
    | c0 :: r0 =>
      if c0 = '[' then
      match matchDate r0 with
      | some (dateCs, r1) =>
        match r1 with
        | ',' :: ' ' :: r2 =>
          match matchTime r2 with
          | some (timeCs, r3) =>
            match r3 with
            | ']' :: ' ' :: c1 :: r4 =>
              match splitColonAux [c1] r4 with
              | some (senderCs, contentCs) =>
                some (String.mk dateCs, String.mk timeCs,
                      String.mk senderCs, String.mk contentCs)
              | none => none
            | _ => none
          | none => none
        | _ => none
      | none => none
      else none

/-- chat_parser.SYSTEM_PATTERN.match viewed as a Boolean test: the same
prefix as the boundary pattern, then any non-empty rest. -/
def matchSystem (line : String) : Bool :=
  let cs := dropTrailingNewline line.data
  if cs.contains '\n' then false
  else
    match cs with
    | '[' :: r0 =>
      match matchDate r0 with
      | some (_, r1) =>
        match r1 with
        | ',' :: ' ' :: r2 =>
          match matchTime r2 with
          | some (_, r3) =>
            match r3 with
            | ']' :: ' ' :: _ :: _ => true
            | _ => false
          | none => false
        | _ => false
      | none => false
    | _ => false

/-- strptime %d / %m / %I / %M / %S style numeric field: one or two digits
whose value lies in the given range.  (With two leading digits the
one-digit backtracking alternative can never succeed, because the
following format character is never a digit.) -/
def parseNum12 (lo hi : Nat) : List Char → Option (Nat × List Char)
  | a :: b :: rest =>
    if a.isDigit && b.isDigit then
      let v := digitVal a * 10 + digitVal b
      if lo ≤ v && v ≤ hi then some (v, rest) else none
    else if a.isDigit then
      let v := digitVal a
      if lo ≤ v && v ≤ hi then some (v, b :: rest) else none
    else none
  | [a] =>
    if a.isDigit then
      let v := digitVal a
      if lo ≤ v && v ≤ hi then some (v, []) else none
    else none
  | [] => none

/-- Expect one literal character. -/
def expectChar (c : Char) : List Char → Option (List Char)
  | x :: rest => if x == c then some rest else none
  | [] => none

/-- A whitespace run in a strptime format requires one or more whitespace
characters in the input. -/
def skipWs1 : List Char → Option (List Char)
  | x :: rest =>
    if isPyWhitespace x then some (rest.dropWhile isPyWhitespace) else none
  | [] => none

/-- strptime %y: exactly two digits; 00-68 map to 2000-2068, 69-99 to
1969-1999. -/
def parseYear2 : List Char → Option (Nat × List Char)
  | a :: b :: rest =>
    if a.isDigit && b.isDigit then
      let y2 := digitVal a * 10 + digitVal b
      some ((if y2 ≤ 68 then 2000 + y2 else 1900 + y2), rest)
    else none
  | _ => none

/-- strptime %p (C locale): AM or PM, case-insensitively; true means PM. -/
def parseAmPm : List Char → Option (Bool × List Char)
  | p :: m :: rest =>
    if (p == 'A' || p == 'a') && (m == 'M' || m == 'm') then some (false, rest)
    else if (p == 'P' || p == 'p') && (m == 'M' || m == 'm') then some (true, rest)
    else none
  | _ => none

/-- Gregorian leap year. -/
def isLeapYear (y : Nat) : Bool :=
  y % 4 == 0 && (y % 100 != 0 || y % 400 == 0)

/-- Length of a month. -/
def daysInMonth (y m : Nat) : Nat :=
  if m == 2 then (if isLeapYear y then 29 else 28)
  else if m == 4 || m == 6 || m == 9 || m == 11 then 30
  else 31

/-- Days in year y before month m. -/
def cumDaysBeforeMonth (y m : Nat) : Nat :=
  ((List.range (m - 1)).map (fun i => daysInMonth y (i + 1))).sum

/-- Days from 0001-01-01 (day 0, a Monday) to the given civil date. -/
def daysFromCivil (y m d : Nat) : Nat :=
  365 * (y - 1) + (y - 1) / 4 - (y - 1) / 100 + (y - 1) / 400 +
    cumDaysBeforeMonth y m + (d - 1)

/-- strptime("%d/%m/%y %I:%M:%S %p") followed by datetime construction,
returning the absolute second count; none on any match or range failure
(ValueError in the source). -/
def strptimeSeconds (cs : List Char) : Option Nat := do
  let (day, r1) ← parseNum12 1 31 cs
  let r2 ← expectChar '/' r1
  let (month, r3) ← parseNum12 1 12 r2
  let r4 ← expectChar '/' r3
  let (year, r5) ← parseYear2 r4
  let r6 ← skipWs1 r5
  let (hour12, r7) ← parseNum12 1 12 r6
  let r8 ← expectChar ':' r7
  let (minute, r9) ← parseNum12 0 59 r8
  let r10 ← expectChar ':' r9
  let (second, r11) ← parseNum12 0 59 r10
  let r12 ← skipWs1 r11
  let (isPm, r13) ← parseAmPm r12
  if r13.isEmpty ∧ day ≤ daysInMonth year month then
    let hour24 := if isPm then (if hour12 == 12 then 12 else hour12 + 12)
                  else (if hour12 == 12 then 0 else hour12)
    some (daysFromCivil year month day * 86400 + hour24 * 3600 + minute * 60 + second)
  else
    none

/-- chat_parser.parse_timestamp: narrow no-break and no-break spaces in the
time are rewritten to ordinary spaces, then the combined string is parsed;
none models the ValueError path. -/
def parse_timestamp (date_str time_str : String) : Option Int :=
  let t := String.mk (time_str.data.map fun c =>
    if c == ' ' || c == ' ' then ' ' else c)
  let combined := date_str ++ " " ++ t
  match strptimeSeconds combined.data with
  | some n => some (n : Int)
  | none => none

/-- Per-line preprocessing in parse_whatsapp_chat:
line.lstrip(BOM).rstrip(newline and carriage return). -/
def preprocessLine (raw : String) : String :=
  String.mk (((raw.data.dropWhile (· == '﻿')).reverse.dropWhile
    (fun c => c == '\n' || c == '\r')).reverse)

/-- The loop state of parse_whatsapp_chat: the accumulated messages and
the message currently being built. -/
structure ParseState where
  messages : List Message
  current : Option Message
deriving DecidableEq

/-- One iteration of the parse_whatsapp_chat loop body. -/
def processLine (st : ParseState) (rawLine : String) : ParseState :=
  let line := preprocessLine rawLine
  if pyStrip line = "" then st
  else
    match matchBoundary line with
    | some (date_str, time_str, sender0, content0) =>
      let msgs := st.messages ++ st.current.toList
      let content := pyStrip (pyReplace content0 "‎" "")
      let sender := pyStrip sender0
      if should_skip_message content then
        { messages := msgs, current := none }
      else
        match parse_timestamp date_str time_str with
        | none => { messages := msgs, current := none }
        | some ts =>
          let r := classify_message_type content
          let content2 := pyStrip (pyReplace
            (pyReplace content "<This message was edited>" "")
            "‎<This message was edited>" "")
          { messages := msgs,
            current := some { timestamp := ts, sender := sender, content := content2,
                              message_type := r.1, raw_line := line,
                              call_duration_seconds := r.2.1, is_edited := r.2.2 } }
    | none =>
      if matchSystem line && st.current.isNone then st
      else
        match st.current with
        | some cur =>
          { messages := st.messages,
            current := some { cur with
              content := cur.content ++ "\n" ++ pyStrip line,
              raw_line := cur.raw_line ++ "\n" ++ line } }
        | none => st

/-- chat_parser.parse_whatsapp_chat over the file's lines: fold the loop
body, then flush the last open message. -/
def parse_whatsapp_chat (lines : List String) : List Message :=
  let st := lines.foldl processLine { messages := [], current := none }
  st.messages ++ st.current.toList

/-- The loop body of MetricsCalculator.get_message_counts
(counts[msg.sender] += 1; the defaultdict is modelled by a total function
that is 0 off its keys). -/
def msgCountStep (counts : String → Nat) (m : Message) : String → Nat :=
  fun s => if s = m.sender then counts s + 1 else counts s

/-- MetricsCalculator.get_message_counts. -/
def get_message_counts (msgs : List Message) : String → Nat :=
  msgs.foldl msgCountStep (fun _ => 0)

/-- The loop of MetricsCalculator.get_double_messages: current sender,
current streak length, and the counts accumulated so far. -/
def doubleAux : List Message → String → Nat → (String → Nat) → String → Nat
  | [], current_sender, streak, counts =>
    fun s => if 2 ≤ streak ∧ s = current_sender then counts s + (streak - 1) else counts s
  | m :: rest, current_sender, streak, counts =>
    if m.sender = current_sender then
      doubleAux rest current_sender (streak + 1) counts
    else
      let counts' := if 2 ≤ streak then
          (fun s => if s = current_sender then counts s + (streak - 1) else counts s)
        else counts
      doubleAux rest m.sender 1 counts'

/-- MetricsCalculator.get_double_messages. -/
def get_double_messages (msgs : List Message) : String → Nat :=
  match msgs with
  | [] => fun _ => 0
  | m :: rest => doubleAux rest m.sender 1 (fun _ => 0)

/-- Left-to-right maximal runs, starting inside a run of the given sender
with the given length so far. -/
def runsAux (cur : String) (k : Nat) : List String → List (String × Nat)
  | [] => [(cur, k)]
  | s :: rest => if s = cur then runsAux cur (k + 1) rest else (cur, k) :: runsAux s 1 rest

/-- The maximal runs of equal consecutive senders, with their lengths. -/
def senderRuns : List String → List (String × Nat)
  | [] => []
  | s :: rest => runsAux s 1 rest

/-- Double-texting counts as the specification words them: for every
maximal run of k ≥ 2 consecutive entries by a sender, credit k - 1. -/
def doubleSpec (msgs : List Message) (s : String) : Nat :=
  (((senderRuns (msgs.map Message.sender)).filter fun r =>
      r.1 == s && decide (2 ≤ r.2)).map fun r => r.2 - 1).sum

/-- The loop of MetricsCalculator.get_conversation_initiations: remaining
messages, previous timestamp, counts so far. -/
def initAux (gap : Int) : List Message → Int → (String → Nat) → String → Nat
  | [], _, acc => acc
  | m :: rest, prev_time, acc =>
    let acc' := if m.timestamp - prev_time ≥ gap then
        (fun s => if s = m.sender then acc s + 1 else acc s)
      else acc
    initAux gap rest m.timestamp acc'

/-- MetricsCalculator.get_conversation_initiations with its gap threshold
in hours (timedelta(hours=gap_hours) is gap_hours * 3600 seconds). -/
def get_conversation_initiations (msgs : List Message) (gap_hours : Nat) : String → Nat :=
  match msgs with
  | [] => fun _ => 0
  | m :: rest =>
    initAux ((gap_hours : Int) * 3600) rest m.timestamp
      (fun s => if s = m.sender then 1 else 0)

/-- Initiation counts as the specification words them: the first entry's
sender is credited unconditionally, and each subsequent entry's sender is
credited exactly when the gap to the immediately preceding entry is at
least the threshold. -/
def initiationsSpec (msgs : List Message) (gap_hours : Nat) (s : String) : Nat :=
  match msgs with
  | [] => 0
  | m :: rest =>
    (if m.sender = s then 1 else 0) +
    (((m :: rest).zip rest).countP fun pc =>
      pc.2.sender == s && decide ((gap_hours : Int) * 3600 ≤ pc.2.timestamp - pc.1.timestamp))

/-- The elapsed minutes between two adjacent messages
((current - prev).total_seconds() / 60). -/
def respDelta (prev cur : Message) : ℚ :=
  ((cur.timestamp - prev.timestamp : Int) : ℚ) / 60

/-- The loop of MetricsCalculator.get_response_times: previous message,
remaining messages, per-sender samples so far. -/
def respTimesAux (prev : Message) : List Message → (String → List ℚ) → String → List ℚ
  | [], acc => acc
  | cur :: rest, acc =>
    let acc' := if cur.sender ≠ prev.sender then
        (if respDelta prev cur ≤ 1440 then
          (fun s => if s = cur.sender then acc s ++ [respDelta prev cur] else acc s)
        else acc)
      else acc
    respTimesAux cur rest acc'

/-- MetricsCalculator.get_response_times (samples in minutes, bucketed by
the responding sender; fewer than two messages yield no samples). -/
def get_response_times (msgs : List Message) : String → List ℚ :=
  match msgs with
  | [] => fun _ => []
  | [_] => fun _ => []
  | m :: rest => respTimesAux m rest (fun _ => [])

/-- Response-time samples as the specification words them, with the
boundary the code implements: adjacent cross-sender pairs, bucketed by the
responding sender, keeping samples of at most 1440 minutes. -/
def responseSamplesSpec (msgs : List Message) (s : String) : List ℚ :=
  (msgs.zip msgs.tail).filterMap fun pc =>
    if pc.2.sender ≠ pc.1.sender ∧ pc.2.sender = s ∧ respDelta pc.1 pc.2 ≤ 1440 then
      some (respDelta pc.1 pc.2)
    else none

/-- The loop body of MetricsCalculator.get_total_call_duration: add the
call duration when it is truthy (present and non-zero). -/
def callDurStep (acc : String → Nat) (m : Message) : String → Nat :=
  match m.call_duration_seconds with
  | some d => if d ≠ 0 then (fun s => if s = m.sender then acc s + d else acc s) else acc
  | none => acc

/-- MetricsCalculator.get_total_call_duration: sum the truthy call
durations per sender, then integer-divide the per-sender totals by 60. -/
def get_total_call_duration (msgs : List Message) : String → Nat :=
  let durations := msgs.foldl callDurStep (fun _ => 0)
  fun s => durations s / 60

/-- The per-sender sum of the present call durations, in seconds. -/
def callSecondsSpec (msgs : List Message) (s : String) : Nat :=
  (msgs.filterMap fun m =>
    if m.sender = s then m.call_duration_seconds else none).sum

/-- datetime.weekday() (Monday = 0) of an absolute second count: day 0
(0001-01-01) is a Monday.  (The divisor and modulus are positive, so
Lean's Euclidean / and % on Int agree with Python's floor division.) -/
def pyWeekday (t : Int) : Nat := (t / 86400 % 7).toNat

/-- datetime.hour of an absolute second count. -/
def pyHour (t : Int) : Nat := (t % 86400 / 3600).toNat

/-- The loop body of MetricsCalculator.get_hourly_heatmap:
heatmap[dow, hour] += 1. -/
def heatStep (hm : Nat → Nat → Nat) (m : Message) : Nat → Nat → Nat :=
  fun d h =>
    if d = pyWeekday m.timestamp ∧ h = pyHour m.timestamp then hm d h + 1 else hm d h

/-- MetricsCalculator.get_hourly_heatmap: the 7 x 24 matrix is modelled as
a function from (day of week, hour) to count. -/
def get_hourly_heatmap (msgs : List Message) : Nat → Nat → Nat :=
  msgs.foldl heatStep (fun _ _ => 0)

/-- The sum over all 168 cells of the heatmap. -/
def heatSum (hm : Nat → Nat → Nat) : Nat :=
  ∑ d ∈ Finset.range 7, ∑ h ∈ Finset.range 24, hm d h

/-- Text, media, and call kinds (the kinds named by the heatmap claim);
DELETED is classified and kept by the parser but is none of these. -/
def isTextMediaCallKind : MessageType → Bool
  | .TEXT | .IMAGE | .VIDEO | .AUDIO_ | .STICKER | .GIF | .DOCUMENT
  | .LOCATION | .CONTACT
  | .VIDEO_CALL | .VOICE_CALL | .MISSED_VIDEO_CALL | .MISSED_VOICE_CALL => true
  | .DELETED | .SYSTEM => false

/-- The media kinds of the classification taxonomy. -/
def isMediaKind : MessageType → Bool
  | .IMAGE | .VIDEO | .AUDIO_ | .STICKER | .GIF | .DOCUMENT
  | .LOCATION | .CONTACT => true
  | _ => false

/-- The call kinds of the classification taxonomy. -/
def isCallKind : MessageType → Bool
  | .VIDEO_CALL | .VOICE_CALL | .MISSED_VIDEO_CALL | .MISSED_VOICE_CALL => true
  | _ => false

/-- One of the media-omission tests of classify_message_type holds
(evaluated, as there, on the lowered and stripped content). -/
def mediaMarkerPresent (content : String) : Bool :=
  listContains "image omitted".data (contentLowerOf content) ||
  listContains "video omitted".data (contentLowerOf content) ||
  listContains "audio omitted".data (contentLowerOf content) ||
  listContains "sticker omitted".data (contentLowerOf content) ||
  listContains "gif omitted".data (contentLowerOf content) ||
  listContains "document omitted".data (contentLowerOf content) ||
  listContains "location:".data (contentLowerOf content) ||
  listContains "live location shared".data (contentLowerOf content) ||
  listContains "contact card omitted".data (contentLowerOf content)

/-- One of the call tests of classify_message_type holds. -/
def callMarkerPresent (content : String) : Bool :=
  listContains "video call".data (contentLowerOf content) ||
  listContains "voice call".data (contentLowerOf content) ||
  (listContains "call".data (contentLowerOf content) &&
    !(listContains "video".data (contentLowerOf content)))

/-- The missed / no-answer test of classify_message_type holds. -/
def missedMarkerPresent (content : String) : Bool :=
  listContains "missed".data (contentLowerOf content) ||
  listContains "no answer".data (contentLowerOf content)

/-- Some hr / min / sec fragment of parse_call_duration is present. -/
def hasDurationFragment (content : String) : Bool :=
  let lower := (pyLower content).data
  (searchNumUnit "hr".data lower).isSome || (searchNumUnit "min".data lower).isSome ||
  (searchNumUnit "sec".data lower).isSome

/-- The media_types table of MetricsCalculator.get_media_counts. -/
def media_types : List (String × MessageType) :=
  [("images", MessageType.IMAGE), ("videos", MessageType.VIDEO),
   ("audio", MessageType.AUDIO_), ("stickers", MessageType.STICKER),
   ("gifs", MessageType.GIF), ("documents", MessageType.DOCUMENT)]

/-- The call_types table of MetricsCalculator.get_call_counts. -/
def call_types : List (String × MessageType) :=
  [("video_calls", MessageType.VIDEO_CALL), ("voice_calls", MessageType.VOICE_CALL),
   ("missed_video", MessageType.MISSED_VIDEO_CALL),
   ("missed_voice", MessageType.MISSED_VOICE_CALL)]

/-- The shared loop shape of get_media_counts and get_call_counts: a dict
keyed by the participants, each value a dict over the type table
initialized to zero; each message increments the matching cell only when
its sender is a key of the outer dict. -/
def tallyStep (types : List (String × MessageType))
    (counts : List (String × List (String × Nat))) (m : Message) :
    List (String × List (String × Nat)) :=
  types.foldl (fun counts t =>
    if m.message_type = t.2 then
      counts.map fun e =>
        if e.1 = m.sender then
          (e.1, e.2.map fun x => if x.1 = t.1 then (x.1, x.2 + 1) else x)
        else e
    else counts) counts

/-- The dict built by the tally loops, before any message is processed. -/
def tallyInit (types : List (String × MessageType)) (participants : List String) :
    List (String × List (String × Nat)) :=
  participants.map fun s => (s, types.map fun t => (t.1, 0))

def tallyByType (types : List (String × MessageType)) (participants : List String)
    (msgs : List Message) : List (String × List (String × Nat)) :=
  msgs.foldl (tallyStep types) (tallyInit types participants)

/-- MetricsCalculator.get_media_counts. -/
def get_media_counts (participants : List String) (msgs : List Message) :
    List (String × List (String × Nat)) :=
  tallyByType media_types participants msgs

/-- MetricsCalculator.get_call_counts. -/
def get_call_counts (participants : List String) (msgs : List Message) :
    List (String × List (String × Nat)) :=
  tallyByType call_types participants msgs

/-- A plain text message, for concrete instances. -/
def mkMsg (t : Int) (s : String) : Message :=
  { timestamp := t, sender := s, content := "", message_type := MessageType.TEXT,
    raw_line := "" }

/-- The effect of k continuation lines on an open message: each appends
its stripped text to content and its raw text to raw_line, newline
separated (the continuation branch of the parse loop). -/
def contExtend (m : Message) (conts : List String) : Message :=
  conts.foldl (fun cur l =>
    { cur with content := cur.content ++ "\n" ++ pyStrip (preprocessLine l),
               raw_line := cur.raw_line ++ "\n" ++ preprocessLine l }) m

/-- The entry produced by the boundary line
"[01/02/23, 9:15:03 PM] Alice: hello". -/
def aliceMsg : Message :=
  { timestamp := ((daysFromCivil 2023 2 1 * 86400 + 21 * 3600 + 15 * 60 + 3 : Nat) : Int),
    sender := "Alice", content := "hello", message_type := MessageType.TEXT,
    raw_line := "[01/02/23, 9:15:03 PM] Alice: hello" }

/-- A one-entry sequence whose entry is deleted-kind (as the parser
produces for the content "This message was deleted"). -/
def deletedOnlyList : List Message :=
  [{ timestamp := 0, sender := "A", content := "This message was deleted",
     message_type := MessageType.DELETED,
     raw_line := "[01/02/23, 9:15:03 PM] A: This message was deleted" }]

theorem aux_callDur_fold (msgs : List Message) :
    ∀ (acc : String → Nat) (s : String),
    (msgs.foldl callDurStep acc) s = acc s + callSecondsSpec msgs s := by
  induction msgs with
  | nil =>
    intro acc s
    simp [callSecondsSpec]
  | cons m rest ih =>
    intro acc s
    rw [List.foldl_cons, ih]
    simp only [callSecondsSpec, List.filterMap_cons, callDurStep]
    cases hd : m.call_duration_seconds with
    | none =>
      by_cases hs : m.sender = s <;> simp [hs]
    | some d =>
      by_cases hz : d = 0
      · by_cases hs : m.sender = s <;> simp [hs, hz]
      · by_cases hs : m.sender = s
        · simp only [hs, hz, ne_eq, not_false_eq_true, ite_true, if_pos rfl,
            List.sum_cons]
          omega
        · have hs' : ¬ s = m.sender := fun h => hs h.symm
          simp [hs, hs', hz]

/-- C9: the per-sender total call time is the sum of that sender's present
call durations in seconds, integer-divided by 60 (fractional minutes
dropped, never rounded up). -/
theorem claim_C9_total_call_duration :
    ∀ (msgs : List Message) (s : String),
    get_total_call_duration msgs s = callSecondsSpec msgs s / 60 := by
  intro msgs s
  simp only [get_total_call_duration]
  rw [aux_callDur_fold]
  simp

theorem aux_double_runs (rest : List Message) :
    ∀ (cur : String) (k : Nat) (counts : String → Nat) (s : String),
    doubleAux rest cur k counts s =
      counts s + (((runsAux cur k (rest.map Message.sender)).filter fun r =>
        r.1 == s && decide (2 ≤ r.2)).map fun r => r.2 - 1).sum := by
  induction rest with
  | nil =>
    intro cur k counts s
    simp only [doubleAux, List.map_nil, runsAux]
    by_cases hs : cur = s
    · subst hs
      by_cases hk : 2 ≤ k <;> simp [hk]
    · have hs' : ¬ s = cur := fun h => hs h.symm
      simp [hs, hs']
  | cons m rest2 ih =>
    intro cur k counts s
    simp only [doubleAux, List.map_cons, runsAux]
    by_cases hm : m.sender = cur
    · simp only [hm, ite_true, if_pos rfl]
      exact ih cur (k + 1) counts s
    · simp only [hm, ite_false, if_neg hm]
      rw [ih]
      have hcontr :
          (((((cur, k) : String × Nat) ::
              runsAux m.sender 1 (rest2.map Message.sender)).filter fun r =>
                r.1 == s && decide (2 ≤ r.2)).map fun r => r.2 - 1).sum =
            (if 2 ≤ k ∧ s = cur then k - 1 else 0) +
            (((runsAux m.sender 1 (rest2.map Message.sender)).filter fun r =>
                r.1 == s && decide (2 ≤ r.2)).map fun r => r.2 - 1).sum := by
        by_cases hs : cur = s
        · subst hs
          by_cases hk : 2 ≤ k <;> simp [hk]
        · have hs' : ¬ s = cur := fun h => hs h.symm
          simp [hs, hs']
      rw [hcontr]
      by_cases hk : 2 ≤ k
      · by_cases hs : s = cur <;> (simp [hk, hs]; try omega)
      · simp [hk]

/-- C5: double-texting counts credit each sender, for every maximal run of
k ≥ 2 consecutive entries by that sender, with k - 1 (the final run being
flushed the same way); in particular [A, A, A, B, B] gives A count 2 and
B count 1. -/
theorem claim_C5_double_messages :
    (∀ (msgs : List Message) (s : String),
      get_double_messages msgs s = doubleSpec msgs s) ∧
    get_double_messages
      [mkMsg 0 "A", mkMsg 1 "A", mkMsg 2 "A", mkMsg 3 "B", mkMsg 4 "B"] "A" = 2 ∧
    get_double_messages
      [mkMsg 0 "A", mkMsg 1 "A", mkMsg 2 "A", mkMsg 3 "B", mkMsg 4 "B"] "B" = 1 := by
  refine ⟨?_, by decide, by decide⟩
  intro msgs s
  cases msgs with
  | nil => simp [get_double_messages, doubleSpec, senderRuns]
  | cons m rest =>
    simp only [get_double_messages, doubleSpec, senderRuns, List.map_cons]
    rw [aux_double_runs]
    simp

theorem aux_init_fold (rest : List Message) :
    ∀ (gap : Int) (prev : Message) (acc : String → Nat) (s : String),
    initAux gap rest prev.timestamp acc s =
      acc s + ((prev :: rest).zip rest).countP (fun pc =>
        pc.2.sender == s && decide (gap ≤ pc.2.timestamp - pc.1.timestamp)) := by
  induction rest with
  | nil =>
    intro gap prev acc s
    simp [initAux]
  | cons m rest2 ih =>
    intro gap prev acc s
    simp only [initAux, List.zip_cons_cons, List.countP_cons]
    rw [ih gap m]
    by_cases hg : gap ≤ m.timestamp - prev.timestamp
    · by_cases hs : m.sender = s
      · simp only [ge_iff_le, hg, ite_true, hs, if_pos rfl, beq_self_eq_true,
          decide_eq_true_eq, Bool.true_and, if_pos hg]
        omega
      · have hs' : ¬ s = m.sender := fun h => hs h.symm
        simp [hg, hs, hs']
    · simp [hg]

/-- C4: initiation counting credits the first entry's sender
unconditionally, and credits each subsequent entry's sender exactly when
the gap to the immediately preceding entry (whatever its sender) is at
least the threshold; a gap of exactly the threshold counts, a gap of one
second less does not. -/
theorem claim_C4_initiations :
    (∀ (m : Message) (rest : List Message) (gap_hours : Nat) (s : String),
      get_conversation_initiations (m :: rest) gap_hours s =
        initiationsSpec (m :: rest) gap_hours s) ∧
    get_conversation_initiations [mkMsg 0 "A", mkMsg 21600 "B"] 6 "B" = 1 ∧
    get_conversation_initiations [mkMsg 0 "A", mkMsg 21599 "B"] 6 "B" = 0 := by
  refine ⟨?_, by decide, by decide⟩
  intro m rest gap_hours s
  simp only [get_conversation_initiations, initiationsSpec]
  rw [aux_init_fold rest _ m]
  by_cases hs : m.sender = s
  · simp [hs]
  · have hs' : ¬ s = m.sender := fun h => hs h.symm
    simp [hs, hs']

theorem aux_resp_fold (rest : List Message) :
    ∀ (prev : Message) (acc : String → List ℚ) (s : String),
    respTimesAux prev rest acc s = acc s ++ responseSamplesSpec (prev :: rest) s := by
  induction rest with
  | nil =>
    intro prev acc s
    simp [respTimesAux, responseSamplesSpec]
  | cons cur rest2 ih =>
    intro prev acc s
    simp only [respTimesAux]
    rw [ih]
    simp only [responseSamplesSpec, List.tail_cons, List.zip_cons_cons, List.filterMap_cons]
    by_cases h1 : cur.sender = prev.sender
    · simp [h1]
    · by_cases h2 : respDelta prev cur ≤ 1440
      · by_cases h3 : s = cur.sender
        · simp [h1, h2, h3]
        · have h3' : ¬ cur.sender = s := fun h => h3 h.symm
          simp [h1, h2, h3, h3']
      · simp [h1, h2]

/-- C1 (amended): response-time sampling considers only adjacent pairs
with different senders (a same-sender pair contributes no sample), buckets
each surviving sample under the responding sender, and keeps samples of at
most 1440 minutes: a cross-sender pair of exactly 1440 minutes is
included, as is one of 1439 minutes. -/
theorem claim_C1_response_times :
    (∀ (msgs : List Message) (s : String),
      get_response_times msgs s = responseSamplesSpec msgs s) ∧
    get_response_times [mkMsg 0 "A", mkMsg 86340 "B"] "B" = [(1439 : ℚ)] ∧
    get_response_times [mkMsg 0 "A", mkMsg 86400 "B"] "B" = [(1440 : ℚ)] ∧
    get_response_times [mkMsg 0 "A", mkMsg 10000000 "A"] "A" = [] := by
  refine ⟨?_, ?_, ?_, ?_⟩
  · intro msgs s
    match msgs with
    | [] => simp [get_response_times, responseSamplesSpec]
    | [m] => simp [get_response_times, responseSamplesSpec]
    | m :: cur :: rest =>
      simp only [get_response_times]
      rw [aux_resp_fold]
      simp
  · norm_num [get_response_times, respTimesAux, respDelta, mkMsg]
    decide
  · norm_num [get_response_times, respTimesAux, respDelta, mkMsg]
    decide
  · norm_num [get_response_times, respTimesAux, respDelta, mkMsg]

/-- C1 counterexample: the claim says a cross-sender pair whose elapsed
time is exactly 1440 minutes is excluded from the samples, but the code
keeps deltas of at most 1440 minutes, so that pair's sample list is
[1440], not empty. -/
theorem claim_C1_counterexample :
    get_response_times [mkMsg 0 "A", mkMsg 86400 "B"] "B" = [(1440 : ℚ)] ∧
    get_response_times [mkMsg 0 "A", mkMsg 86400 "B"] "B" ≠ [] := by
  constructor
  · norm_num [get_response_times, respTimesAux, respDelta, mkMsg]
    decide
  · norm_num [get_response_times, respTimesAux, respDelta, mkMsg]
    decide

theorem aux_pyWeekday_lt (t : Int) : pyWeekday t < 7 := by
  simp only [pyWeekday]
  omega

theorem aux_pyHour_lt (t : Int) : pyHour t < 24 := by
  simp only [pyHour]
  omega

theorem aux_indicator_sum (n x : Nat) (hx : x < n) :
    (∑ h ∈ Finset.range n, (if h = x then (1 : Nat) else 0)) = 1 := by
  rw [Finset.sum_ite_eq' (Finset.range n) x (fun _ => 1)]
  simp [hx]

theorem aux_heatSum_step (hm : Nat → Nat → Nat) (m : Message) :
    heatSum (heatStep hm m) = heatSum hm + 1 := by
  simp only [heatSum, heatStep]
  have hinner : ∀ d : Nat,
      (∑ h ∈ Finset.range 24,
        if d = pyWeekday m.timestamp ∧ h = pyHour m.timestamp then hm d h + 1 else hm d h) =
      (∑ h ∈ Finset.range 24, hm d h) + (if d = pyWeekday m.timestamp then 1 else 0) := by
    intro d
    by_cases hd : d = pyWeekday m.timestamp
    · have hrw : ∀ h : Nat,
          (if d = pyWeekday m.timestamp ∧ h = pyHour m.timestamp then hm d h + 1
            else hm d h) =
          hm d h + (if h = pyHour m.timestamp then 1 else 0) := by
        intro h
        by_cases hh : h = pyHour m.timestamp <;> simp [hd, hh]
      simp only [hrw]
      rw [Finset.sum_add_distrib,
        aux_indicator_sum 24 (pyHour m.timestamp) (aux_pyHour_lt _), if_pos hd]
    · have hrw : ∀ h : Nat,
          (if d = pyWeekday m.timestamp ∧ h = pyHour m.timestamp then hm d h + 1
            else hm d h) = hm d h := by
        intro h
        simp [hd]
      simp only [hrw]
      rw [if_neg hd, Nat.add_zero]
  rw [Finset.sum_congr rfl (fun d _ => hinner d), Finset.sum_add_distrib,
    aux_indicator_sum 7 (pyWeekday m.timestamp) (aux_pyWeekday_lt _)]

theorem aux_heat_fold (msgs : List Message) :
    ∀ hm : Nat → Nat → Nat,
    heatSum (msgs.foldl heatStep hm) = heatSum hm + msgs.length := by
  induction msgs with
  | nil => intro hm; simp
  | cons m rest ih =>
    intro hm
    rw [List.foldl_cons, ih, aux_heatSum_step]
    simp only [List.length_cons]
    omega

/-- C2 (amended): the sum over all 168 cells of the 7 x 24 heatmap equals
the count of ALL entries of the sequence (every parsed entry, whatever its
kind, is counted in exactly one cell). -/
theorem claim_C2_heatmap_total :
    ∀ msgs : List Message, heatSum (get_hourly_heatmap msgs) = msgs.length := by
  intro msgs
  simp only [get_hourly_heatmap]
  rw [aux_heat_fold]
  simp [heatSum]

/-- C2 counterexample: a one-entry sequence whose entry is deleted-kind
(which the classifier produces for "This message was deleted") has heatmap
total 1, but its count of text+media+call-kind entries is 0, so the two
differ. -/
theorem claim_C2_counterexample :
    ¬ (heatSum (get_hourly_heatmap deletedOnlyList) =
        (deletedOnlyList.countP fun m => isTextMediaCallKind m.message_type)) ∧
    (classify_message_type "This message was deleted").1 = MessageType.DELETED := by
  constructor
  · have h : heatSum (get_hourly_heatmap deletedOnlyList) = 1 := by
      simp only [get_hourly_heatmap]
      rw [aux_heat_fold]
      simp [heatSum, deletedOnlyList]
    rw [h]
    decide
  · decide

theorem aux_classify_duration (content : String) :
    (classify_message_type content).2.1 = none ∨
    (classify_message_type content).2.1 = parse_call_duration content := by
  unfold classify_message_type
  by_cases h1 : listContains "image omitted".data (contentLowerOf content) = true
  · rw [if_pos h1]; exact Or.inl rfl
  rw [if_neg h1]
  by_cases h2 : listContains "video omitted".data (contentLowerOf content) = true
  · rw [if_pos h2]; exact Or.inl rfl
  rw [if_neg h2]
  by_cases h3 : listContains "audio omitted".data (contentLowerOf content) = true
  · rw [if_pos h3]; exact Or.inl rfl
  rw [if_neg h3]
  by_cases h4 : listContains "sticker omitted".data (contentLowerOf content) = true
  · rw [if_pos h4]; exact Or.inl rfl
  rw [if_neg h4]
  by_cases h5 : listContains "gif omitted".data (contentLowerOf content) = true
  · rw [if_pos h5]; exact Or.inl rfl
  rw [if_neg h5]
  by_cases h6 : listContains "document omitted".data (contentLowerOf content) = true
  · rw [if_pos h6]; exact Or.inl rfl
  rw [if_neg h6]
  by_cases h7 : (listContains "location:".data (contentLowerOf content) ||
      listContains "live location shared".data (contentLowerOf content)) = true
  · rw [if_pos h7]; exact Or.inl rfl
  rw [if_neg h7]
  by_cases h8 : listContains "contact card omitted".data (contentLowerOf content) = true
  · rw [if_pos h8]; exact Or.inl rfl
  rw [if_neg h8]
  by_cases h9 : listContains "video call".data (contentLowerOf content) = true
  · rw [if_pos h9]
    by_cases h10 : (listContains "missed".data (contentLowerOf content) ||
        listContains "no answer".data (contentLowerOf content)) = true
    · rw [if_pos h10]; exact Or.inl rfl
    · rw [if_neg h10]; exact Or.inr rfl
  rw [if_neg h9]
  by_cases h11 : (listContains "voice call".data (contentLowerOf content) ||
      (listContains "call".data (contentLowerOf content) &&
        !(listContains "video".data (contentLowerOf content)))) = true
  · rw [if_pos h11]
    by_cases h12 : (listContains "missed".data (contentLowerOf content) ||
        listContains "no answer".data (contentLowerOf content)) = true
    · rw [if_pos h12]; exact Or.inl rfl
    · rw [if_neg h12]; exact Or.inr rfl
  rw [if_neg h11]
  by_cases h13 : (listContains "this message was deleted".data (contentLowerOf content) ||
      listContains "you deleted this message".data (contentLowerOf content)) = true
  · rw [if_pos h13]; exact Or.inl rfl
  rw [if_neg h13]
  exact Or.inl rfl

/-- C3: for a call-classified content string with a missed or no-answer
marker the extracted duration is absent regardless of numeric fragments;
for an answered call with no extractable hr/min/sec fragment the duration
is absent (not zero); and an entry with an absent duration contributes
nothing to the total-call-time aggregate. -/
theorem claim_C3_call_duration_absent :
    (∀ content : String, isCallKind (classify_message_type content).1 = true →
      missedMarkerPresent content = true →
      (classify_message_type content).2.1 = none) ∧
    (∀ content : String,
      ((classify_message_type content).1 = MessageType.VIDEO_CALL ∨
        (classify_message_type content).1 = MessageType.VOICE_CALL) →
      hasDurationFragment content = false →
      parse_call_duration content = none ∧
        (classify_message_type content).2.1 = none) ∧
    (∀ (m : Message) (msgs : List Message) (s : String),
      m.call_duration_seconds = none →
      get_total_call_duration (m :: msgs) s = get_total_call_duration msgs s) := by
  refine ⟨?_, ?_, ?_⟩
  · intro content hcall hmiss
    unfold missedMarkerPresent at hmiss
    unfold classify_message_type
    by_cases h1 : listContains "image omitted".data (contentLowerOf content) = true
    · rw [if_pos h1]
    rw [if_neg h1]
    by_cases h2 : listContains "video omitted".data (contentLowerOf content) = true
    · rw [if_pos h2]
    rw [if_neg h2]
    by_cases h3 : listContains "audio omitted".data (contentLowerOf content) = true
    · rw [if_pos h3]
    rw [if_neg h3]
    by_cases h4 : listContains "sticker omitted".data (contentLowerOf content) = true
    · rw [if_pos h4]
    rw [if_neg h4]
    by_cases h5 : listContains "gif omitted".data (contentLowerOf content) = true
    · rw [if_pos h5]
    rw [if_neg h5]
    by_cases h6 : listContains "document omitted".data (contentLowerOf content) = true
    · rw [if_pos h6]
    rw [if_neg h6]
    by_cases h7 : (listContains "location:".data (contentLowerOf content) ||
        listContains "live location shared".data (contentLowerOf content)) = true
    · rw [if_pos h7]
    rw [if_neg h7]
    by_cases h8 : listContains "contact card omitted".data (contentLowerOf content) = true
    · rw [if_pos h8]
    rw [if_neg h8]
    by_cases h9 : listContains "video call".data (contentLowerOf content) = true
    · rw [if_pos h9, if_pos hmiss]
    rw [if_neg h9]
    by_cases h11 : (listContains "voice call".data (contentLowerOf content) ||
        (listContains "call".data (contentLowerOf content) &&
          !(listContains "video".data (contentLowerOf content)))) = true
    · rw [if_pos h11, if_pos hmiss]
    rw [if_neg h11]
    by_cases h13 : (listContains "this message was deleted".data (contentLowerOf content) ||
        listContains "you deleted this message".data (contentLowerOf content)) = true
    · rw [if_pos h13]
    rw [if_neg h13]
  · intro content hans hfrag
    have hpcd : parse_call_duration content = none := by
      simp only [parse_call_duration]
      cases hhr : searchNumUnit "hr".data (pyLower content).data with
      | some n => exact absurd hfrag (by simp [hasDurationFragment, hhr])
      | none =>
        cases hmin : searchNumUnit "min".data (pyLower content).data with
        | some n => exact absurd hfrag (by simp [hasDurationFragment, hmin])
        | none =>
          cases hsec : searchNumUnit "sec".data (pyLower content).data with
          | some n => exact absurd hfrag (by simp [hasDurationFragment, hsec])
          | none => simp [hhr, hmin, hsec]
    refine ⟨hpcd, ?_⟩
    rcases aux_classify_duration content with h | h
    · exact h
    · rw [h, hpcd]
  · intro m msgs s h
    simp only [get_total_call_duration, List.foldl_cons]
    have hstep : ∀ acc : String → Nat, callDurStep acc m = acc := by
      intro acc
      simp [callDurStep, h]
    rw [hstep]

/-- C3 witness: concrete instances discharging each hypothesis: a missed
voice call, an answered video call with no duration fragment, and a
no-duration entry prepended to a sequence. -/
theorem claim_C3_witness :
    (classify_message_type "Missed voice call").2.1 = none ∧
    (parse_call_duration "Video call" = none ∧
      (classify_message_type "Video call").2.1 = none) ∧
    get_total_call_duration
      (mkMsg 0 "A" :: [{ mkMsg 1 "A" with
        message_type := MessageType.VOICE_CALL,
        call_duration_seconds := some 90 }]) "A" =
    get_total_call_duration
      [{ mkMsg 1 "A" with
        message_type := MessageType.VOICE_CALL,
        call_duration_seconds := some 90 }] "A" :=
  ⟨claim_C3_call_duration_absent.1 "Missed voice call" (by decide) (by decide),
   claim_C3_call_duration_absent.2.1 "Video call" (by decide) (by decide),
   claim_C3_call_duration_absent.2.2 (mkMsg 0 "A")
     [{ mkMsg 1 "A" with
        message_type := MessageType.VOICE_CALL,
        call_duration_seconds := some 90 }] "A" (by decide)⟩

/-- C6: the classifier's case-insensitive tests run in a fixed priority
order with first match winning; any content containing both a
media-omission marker and a call marker is classified as a media kind and
never as a call kind. -/
theorem claim_C6_media_beats_call :
    ∀ content : String, mediaMarkerPresent content = true →
      callMarkerPresent content = true →
      isMediaKind (classify_message_type content).1 = true ∧
      isCallKind (classify_message_type content).1 = false := by
  intro content hmedia hcall
  unfold mediaMarkerPresent at hmedia
  unfold classify_message_type
  by_cases h1 : listContains "image omitted".data (contentLowerOf content) = true
  · rw [if_pos h1]; exact ⟨rfl, rfl⟩
  rw [if_neg h1]
  by_cases h2 : listContains "video omitted".data (contentLowerOf content) = true
  · rw [if_pos h2]; exact ⟨rfl, rfl⟩
  rw [if_neg h2]
  by_cases h3 : listContains "audio omitted".data (contentLowerOf content) = true
  · rw [if_pos h3]; exact ⟨rfl, rfl⟩
  rw [if_neg h3]
  by_cases h4 : listContains "sticker omitted".data (contentLowerOf content) = true
  · rw [if_pos h4]; exact ⟨rfl, rfl⟩
  rw [if_neg h4]
  by_cases h5 : listContains "gif omitted".data (contentLowerOf content) = true
  · rw [if_pos h5]; exact ⟨rfl, rfl⟩
  rw [if_neg h5]
  by_cases h6 : listContains "document omitted".data (contentLowerOf content) = true
  · rw [if_pos h6]; exact ⟨rfl, rfl⟩
  rw [if_neg h6]
  by_cases h7 : (listContains "location:".data (contentLowerOf content) ||
      listContains "live location shared".data (contentLowerOf content)) = true
  · rw [if_pos h7]; exact ⟨rfl, rfl⟩
  rw [if_neg h7]
  by_cases h8 : listContains "contact card omitted".data (contentLowerOf content) = true
  · rw [if_pos h8]; exact ⟨rfl, rfl⟩
  exfalso
  simp only [Bool.not_eq_true, Bool.or_eq_false_iff] at h1 h2 h3 h4 h5 h6 h7 h8
  simp [h1, h2, h3, h4, h5, h6, h7.1, h7.2, h8] at hmedia

/-- C6 witness: content containing both the image-omission marker and the
video-call marker is classified IMAGE, a media kind and not a call kind. -/
theorem claim_C6_witness :
    mediaMarkerPresent "image omitted video call" = true ∧
    callMarkerPresent "image omitted video call" = true ∧
    isMediaKind (classify_message_type "image omitted video call").1 = true ∧
    isCallKind (classify_message_type "image omitted video call").1 = false :=
  ⟨by decide, by decide,
   (claim_C6_media_beats_call "image omitted video call" (by decide) (by decide)).1,
   (claim_C6_media_beats_call "image omitted video call" (by decide) (by decide)).2⟩

theorem aux_cont_step (l : String) (msgs : List Message) (cur : Message)
    (hb : matchBoundary (preprocessLine l) = none)
    (hnb : ¬ pyStrip (preprocessLine l) = "") :
    processLine { messages := msgs, current := some cur } l =
      { messages := msgs,
        current := some { cur with
          content := cur.content ++ "\n" ++ pyStrip (preprocessLine l),
          raw_line := cur.raw_line ++ "\n" ++ preprocessLine l } } := by
  simp [processLine, hb, hnb]

theorem aux_cont_fold (conts : List String) :
    ∀ (msgs : List Message) (cur : Message),
    (∀ l ∈ conts, matchBoundary (preprocessLine l) = none ∧
      ¬ pyStrip (preprocessLine l) = "") →
    List.foldl processLine { messages := msgs, current := some cur } conts =
      { messages := msgs, current := some (contExtend cur conts) } := by
  induction conts with
  | nil =>
    intro msgs cur _
    simp [contExtend]
  | cons l rest ih =>
    intro msgs cur h
    have hl := h l (List.mem_cons_self l rest)
    rw [List.foldl_cons, aux_cont_step l msgs cur hl.1 hl.2,
      ih msgs _ (fun x hx => h x (List.mem_cons_of_mem l hx))]
    simp [contExtend]

/-- C7 (amended): a boundary line that opens an entry, followed by k
non-boundary lines each with non-whitespace text, parses to exactly one
entry whose content is the boundary content plus the k lines' stripped
text appended in order, newline separated (whitespace-only lines are
skipped entirely and contribute nothing); the concrete round-trip
instance of the claim holds as stated. -/
theorem claim_C7_continuation_merge :
    (∀ (bline : String) (m : Message) (conts : List String),
      processLine { messages := [], current := none } bline =
        { messages := [], current := some m } →
      (∀ l ∈ conts, matchBoundary (preprocessLine l) = none ∧
        ¬ pyStrip (preprocessLine l) = "") →
      parse_whatsapp_chat (bline :: conts) = [contExtend m conts]) ∧
    ((parse_whatsapp_chat ["[01/02/23, 9:15:03 PM] Alice: hello", "world"]).map
      fun m => (m.sender, m.content, m.message_type)) =
      [("Alice", "hello\nworld", MessageType.TEXT)] := by
  constructor
  · intro bline m conts hb hc
    simp only [parse_whatsapp_chat, List.foldl_cons]
    rw [hb, aux_cont_fold conts [] m hc]
    simp
  · decide

/-- C7 witness: the boundary line for Alice followed by the single
continuation line "world". -/
theorem claim_C7_witness :
    parse_whatsapp_chat ["[01/02/23, 9:15:03 PM] Alice: hello", "world"] =
      [contExtend aliceMsg ["world"]] :=
  claim_C7_continuation_merge.1 "[01/02/23, 9:15:03 PM] Alice: hello" aliceMsg
    ["world"] (by decide) (by decide)

/-- C7 counterexample: a whitespace-only line is a non-boundary line, yet
the entry's content stays "hello" rather than gaining an appended empty
stripped line, so the claim's content formula fails for k = 1. -/
theorem claim_C7_counterexample :
    matchBoundary (preprocessLine "   ") = none ∧
    ((parse_whatsapp_chat ["[01/02/23, 9:15:03 PM] Alice: hello", "   "]).map
      fun m => m.content) = ["hello"] ∧
    "hello" ≠ "hello" ++ "\n" ++ pyStrip (preprocessLine "   ") := by
  refine ⟨by decide, by decide, by decide⟩

theorem aux_all_ws_of_strip_empty (cs : List Char) (h : stripList cs = []) :
    ∀ c ∈ cs, isPyWhitespace c = true := by
  intro c hc
  unfold stripList at h
  rw [List.reverse_eq_nil_iff, List.dropWhile_eq_nil_iff] at h
  by_contra hw
  rw [Bool.not_eq_true] at hw
  have hmem : c ∈ cs.dropWhile isPyWhitespace := by
    have hsplit := List.takeWhile_append_dropWhile (p := isPyWhitespace) (l := cs)
    rw [← hsplit] at hc
    rcases List.mem_append.mp hc with h1 | h2
    · have := List.mem_takeWhile_imp h1
      rw [hw] at this
      exact Bool.noConfusion this
    · exact h2
  have := h c (List.mem_reverse.mpr hmem)
  rw [hw] at this
  exact Bool.noConfusion this

theorem aux_boundary_not_blank (line : String) (r : String × String × String × String)
    (h : matchBoundary line = some r) : ¬ pyStrip line = "" := by
  intro hstrip
  have hall : ∀ c ∈ line.data, isPyWhitespace c = true := by
    apply aux_all_ws_of_strip_empty
    have h2 := congrArg String.data hstrip
    simpa [pyStrip] using h2
  have hnone : matchBoundary line = none := by
    unfold matchBoundary
    by_cases hnl : (dropTrailingNewline line.data).contains '\n' = true
    · rw [if_pos hnl]
    · rw [if_neg hnl]
      cases hcs : dropTrailingNewline line.data with
      | nil => rfl
      | cons c r0 =>
        have hcmem : c ∈ line.data := by
          have h1 : c ∈ dropTrailingNewline line.data := by
            rw [hcs]
            exact List.mem_cons_self _ _
          unfold dropTrailingNewline at h1
          by_cases hl : (line.data.getLast? == some '\n') = true
          · rw [if_pos hl] at h1
            exact List.dropLast_subset _ h1
          · rw [if_neg hl] at h1
            exact h1
        have hc : ¬ c = '[' := by
          intro hEq
          have hcw := hall c hcmem
          rw [hEq] at hcw
          simp [isPyWhitespace] at hcw
        simp [hc]
  rw [hnone] at h
  exact Option.noConfusion h

/-- C8: a candidate boundary line whose cleaned content matches the
system-notification list is dropped entirely (the previous open entry is
flushed, and no entry stays open), and a non-boundary line arriving while
no entry is open (after a dropped entry or before the first boundary) is
discarded without changing the state. -/
theorem claim_C8_noise_filtering :
    (∀ (line : String) (st : ParseState) (d t s0 c0 : String),
      matchBoundary (preprocessLine line) = some (d, t, s0, c0) →
      should_skip_message (pyStrip (pyReplace c0 "‎" "")) = true →
      processLine st line =
        { messages := st.messages ++ st.current.toList, current := none }) ∧
    (∀ (line : String) (msgs : List Message),
      matchBoundary (preprocessLine line) = none →
      processLine { messages := msgs, current := none } line =
        { messages := msgs, current := none }) := by
  constructor
  · intro line st d t s0 c0 hb hskip
    have hnb := aux_boundary_not_blank (preprocessLine line) (d, t, s0, c0) hb
    simp only [processLine]
    rw [if_neg hnb]
    simp only [hb]
    rw [if_pos hskip]
  · intro line msgs hb
    simp only [processLine]
    by_cases hblank : pyStrip (preprocessLine line) = ""
    · rw [if_pos hblank]
    · rw [if_neg hblank]
      simp only [hb]
      simp

/-- C8 witness: a boundary line carrying the "security code changed"
notification flushes the open entry and drops itself; a stray
continuation line with no open entry leaves the state unchanged. -/
theorem claim_C8_witness :
    processLine { messages := [mkMsg 0 "A"], current := some (mkMsg 1 "B") }
        "[01/02/23, 9:15:03 PM] Alice: security code changed" =
      { messages := [mkMsg 0 "A", mkMsg 1 "B"], current := none } ∧
    processLine { messages := [mkMsg 0 "A"], current := none } "stray continuation" =
      { messages := [mkMsg 0 "A"], current := none } :=
  ⟨claim_C8_noise_filtering.1 "[01/02/23, 9:15:03 PM] Alice: security code changed"
      { messages := [mkMsg 0 "A"], current := some (mkMsg 1 "B") }
      "01/02/23" "9:15:03 PM" "Alice" "security code changed"
      (by decide) (by decide),
   claim_C8_noise_filtering.2 "stray continuation" [mkMsg 0 "A"] (by decide)⟩

theorem aux_tallyStep_cons (t : String × MessageType)
    (rest : List (String × MessageType))
    (counts : List (String × List (String × Nat))) (m : Message) :
    tallyStep (t :: rest) counts m =
      tallyStep rest
        (if m.message_type = t.2 then
          counts.map fun e =>
            if e.1 = m.sender then
              (e.1, e.2.map fun x => if x.1 = t.1 then (x.1, x.2 + 1) else x)
            else e
        else counts) m := rfl

theorem aux_tallyStep_keys (m : Message) (types : List (String × MessageType)) :
    ∀ counts : List (String × List (String × Nat)),
    (tallyStep types counts m).map Prod.fst = counts.map Prod.fst := by
  induction types with
  | nil => intro counts; rfl
  | cons t rest ih =>
    intro counts
    rw [aux_tallyStep_cons, ih]
    by_cases hm : m.message_type = t.2
    · rw [if_pos hm, List.map_map]
      apply List.map_congr_left
      intro e _
      by_cases he : e.1 = m.sender <;> simp [he]
    · rw [if_neg hm]

theorem aux_tally_keys (types : List (String × MessageType)) (msgs : List Message) :
    ∀ counts : List (String × List (String × Nat)),
    (msgs.foldl (tallyStep types) counts).map Prod.fst = counts.map Prod.fst := by
  induction msgs with
  | nil => intro counts; rfl
  | cons m rest ih =>
    intro counts
    rw [List.foldl_cons, ih, aux_tallyStep_keys]

theorem aux_tallyStep_absent (types : List (String × MessageType)) (m : Message) :
    ∀ counts : List (String × List (String × Nat)),
    m.sender ∉ counts.map Prod.fst → tallyStep types counts m = counts := by
  induction types with
  | nil => intro counts _; rfl
  | cons t rest ih =>
    intro counts h
    rw [aux_tallyStep_cons]
    by_cases hm : m.message_type = t.2
    · rw [if_pos hm]
      have hmap : (counts.map fun e =>
          if e.1 = m.sender then
            (e.1, e.2.map fun x => if x.1 = t.1 then (x.1, x.2 + 1) else x)
          else e) = counts := by
        have hid : ∀ e ∈ counts, (if e.1 = m.sender then
            (e.1, e.2.map fun x => if x.1 = t.1 then (x.1, x.2 + 1) else x)
          else e) = e := by
          intro e he
          have hne : ¬ e.1 = m.sender := fun hEq =>
            h (hEq ▸ List.mem_map.mpr ⟨e, he, rfl⟩)
          rw [if_neg hne]
        calc (counts.map fun e =>
            if e.1 = m.sender then
              (e.1, e.2.map fun x => if x.1 = t.1 then (x.1, x.2 + 1) else x)
            else e) = counts.map id := List.map_congr_left hid
          _ = counts := List.map_id counts
      rw [hmap]
      exact ih counts h
    · rw [if_neg hm]
      exact ih counts h

/-- C10: the per-sender media-type and call-type tallies are keyed by
exactly the participant-mapping keys, each initialized to zero for every
type; a message whose sender is not such a key leaves both tallies
unchanged even though the overall message counts still count it. -/
theorem claim_C10_participant_keys :
    (∀ (parts : List String) (msgs : List Message),
      (get_media_counts parts msgs).map Prod.fst = parts ∧
      (get_call_counts parts msgs).map Prod.fst = parts) ∧
    (∀ parts : List String,
      get_media_counts parts [] =
        parts.map (fun s => (s, media_types.map fun t => (t.1, 0))) ∧
      get_call_counts parts [] =
        parts.map (fun s => (s, call_types.map fun t => (t.1, 0)))) ∧
    (∀ (parts : List String) (msgs : List Message) (m : Message),
      m.sender ∉ parts →
      get_media_counts parts (msgs ++ [m]) = get_media_counts parts msgs ∧
      get_call_counts parts (msgs ++ [m]) = get_call_counts parts msgs ∧
      get_message_counts (msgs ++ [m]) m.sender =
        get_message_counts msgs m.sender + 1) := by
  refine ⟨?_, ?_, ?_⟩
  · intro parts msgs
    constructor
    · simp only [get_media_counts, tallyByType]
      rw [aux_tally_keys]
      simp only [tallyInit, List.map_map]
      exact (List.map_congr_left fun s _ => rfl).trans (List.map_id parts)
    · simp only [get_call_counts, tallyByType]
      rw [aux_tally_keys]
      simp only [tallyInit, List.map_map]
      exact (List.map_congr_left fun s _ => rfl).trans (List.map_id parts)
  · intro parts
    exact ⟨rfl, rfl⟩
  · intro parts msgs m h
    have habsent : ∀ types : List (String × MessageType),
        tallyByType types parts (msgs ++ [m]) = tallyByType types parts msgs := by
      intro types
      simp only [tallyByType, List.foldl_append, List.foldl_cons, List.foldl_nil]
      apply aux_tallyStep_absent
      rw [aux_tally_keys]
      have hkeys : (tallyInit types parts).map Prod.fst = parts := by
        simp only [tallyInit, List.map_map]
        exact (List.map_congr_left fun s _ => rfl).trans (List.map_id parts)
      rw [hkeys]
      exact h
    refine ⟨habsent media_types, habsent call_types, ?_⟩
    simp only [get_message_counts, List.foldl_append, List.foldl_cons, List.foldl_nil,
      msgCountStep]
    simp

/-- C10 witness: a message from the non-participant "B" leaves the
tallies keyed by ["A"] unchanged while its message count rises. -/
theorem claim_C10_witness :
    get_media_counts ["A"] ([] ++ [mkMsg 0 "B"]) = get_media_counts ["A"] [] ∧
    get_call_counts ["A"] ([] ++ [mkMsg 0 "B"]) = get_call_counts ["A"] [] ∧
    get_message_counts ([] ++ [mkMsg 0 "B"]) (mkMsg 0 "B").sender =
      get_message_counts [] (mkMsg 0 "B").sender + 1 :=
  claim_C10_participant_keys.2.2 ["A"] [] (mkMsg 0 "B") (by decide)
